import Mathlib

/-
Verification of the TrekSafer request pipeline against its specification.
The definitions below are a shallow embedding of the Python sources
(app/filters.py, app/fires.py, app/helpers.py, app/messages.py,
app/avalanche/report.py).  Python machine floats are modelled by exact
rationals; Python round() (round half to even) is `pythonRound`, and
int() truncation is `pyInt`.
-/

namespace TrekSafer

unseal Rat.mul Rat.inv Rat.sub Rat.add

/-- Python round() with no digits argument: round half to even, result an
integer (models the builtin used by messages.py). -/
def pythonRound (q : ℚ) : ℤ :=
  if q - (⌊q⌋ : ℚ) < 1/2 then ⌊q⌋
  else if 1/2 < q - (⌊q⌋ : ℚ) then ⌊q⌋ + 1
  else if ⌊q⌋ % 2 = 0 then ⌊q⌋ else ⌊q⌋ + 1

/-- Python int() on a float: truncation toward zero. -/
def pyInt (q : ℚ) : ℤ :=
  q.num.tdiv (q.den : ℤ)

/-- Messages._format_distance (app/messages.py lines 99-119).  Takes meters,
converts to km; below 10 km rounds via round(km*10)/10, otherwise round(km);
finally strips a trailing ".0" by returning a Python int (Sum.inl) when the
value is integral, and the one-decimal float (Sum.inr) otherwise. -/
def format_distance (meters : ℚ) : ℤ ⊕ ℚ :=
  let km := meters / 1000
  let km_rounded : ℚ :=
    if km < 10 then (pythonRound (km * 10) : ℚ) / 10
    else (pythonRound km : ℚ)
  if km_rounded = (pyInt km_rounded : ℚ) then Sum.inl (pyInt km_rounded)
  else Sum.inr km_rounded

/-- Numeric value carried by the formatted distance (int or float). -/
def distValue : ℤ ⊕ ℚ → ℚ
  | Sum.inl z => (z : ℚ)
  | Sum.inr q => q

/-- Render of a value n/10 as Python str() prints a one-decimal float. -/
def renderTenths (n : ℤ) : String :=
  let m := n.natAbs
  let sign := if n < 0 then "-" else ""
  sign ++ toString (m / 10) ++ "." ++ toString (m % 10)

/-- String form of the formatted distance, as interpolated into the reply
(Python str of an int, or of a one-decimal float). -/
def distToString : ℤ ⊕ ℚ → String
  | Sum.inl z => toString z
  | Sum.inr q => renderTenths (q * 10).num

/-- Characters removed by Python str.strip() (whitespace; the subset occurring
in the data handled here). -/
def isPySpace (c : Char) : Bool :=
  c = ' ' || c = '\t' || c = '\n' || c = '\r'

/-- Python str.strip(): drop leading and trailing whitespace. -/
def pyStrip (s : String) : String :=
  String.mk (((s.data.dropWhile isPySpace).reverse.dropWhile isPySpace).reverse)

/-- Value of a digit string read in base 10. -/
def digitsToNat (cs : List Char) : ℕ :=
  cs.foldl (fun a c => a * 10 + (c.toNat - 48)) 0

/-- Python float() on a string, for the decimal forms that occur in this
pipeline: optional sign, integer digits, optional fraction.  Returns none when
Python float() would raise ValueError. -/
def strToRat (s : String) : Option ℚ :=
  let cs := (pyStrip s).data
  let signParsed : Bool × List Char :=
    match cs with
    | '-' :: rest => (true, rest)
    | '+' :: rest => (false, rest)
    | _ => (false, cs)
  let neg := signParsed.1
  let body := signParsed.2
  let ip := body.takeWhile Char.isDigit
  let rest := body.dropWhile Char.isDigit
  let val : Option ℚ :=
    match rest with
    | [] => if ip.isEmpty then none else some (digitsToNat ip : ℚ)
    | c :: frac =>
      if c = '.' && frac.all Char.isDigit && (!ip.isEmpty || !frac.isEmpty) then
        some ((digitsToNat ip : ℚ) + (digitsToNat frac : ℚ) / ((10 : ℚ) ^ frac.length))
      else none
  val.map (fun v => if neg then -v else v)

/-- A Python value as it occurs in a fire record: a string, an int, a finite
float (modelled as an exact rational), or float('inf') (produced only by
status_to_level for unmapped raw statuses). -/
inductive PyVal where
  | vstr (s : String)
  | vint (n : ℤ)
  | vrat (q : ℚ)
  | vinf
deriving DecidableEq, Repr

/-- The finite-result reading of Python float() on a record value, as used by
the formatter: there every float() call is immediately followed by round()
(or by the division and round() of _format_distance), and round() raises
OverflowError on an infinite argument, so an infinite value fails exactly like
an unconvertible one.  none therefore models a raised ValueError/TypeError or
the round() OverflowError on an infinity.  The size filter, whose behavior on
infinities IS observable, uses the faithful pyFloat below instead. -/
def floatOfVal : PyVal → Option ℚ
  | .vstr s => strToRat s
  | .vint n => some (n : ℚ)
  | .vrat q => some q
  | .vinf => none

/-- A Python float value as apply_size_filter observes it: finite (a
rational), positive infinity (top) or negative infinity (bottom), with the
float ordering.  NaN is not represented: every NaN comparison is False, so a
NaN behaves in the filters exactly like a failed conversion, and round(nan)
raises just as round(inf) does in the formatter. -/
abbrev PyFloat := WithBot (WithTop ℚ)

/-- A finite float value. -/
def PyFloat.finite (q : ℚ) : PyFloat := ((q : WithTop ℚ) : WithBot (WithTop ℚ))

/-- float('inf'). -/
def PyFloat.posInf : PyFloat := ((⊤ : WithTop ℚ) : WithBot (WithTop ℚ))

/-- float('-inf'). -/
def PyFloat.negInf : PyFloat := (⊥ : WithBot (WithTop ℚ))

/-- Python float() on a string, including the signed, case-insensitive
infinity forms ("inf", "Infinity", ...).  NaN forms map to none (see
PyFloat); everything else falls back to the decimal reading. -/
def strToFloat (s : String) : Option PyFloat :=
  let cs := (pyStrip s).data
  let signAndBody : Bool × List Char :=
    match cs with
    | '-' :: rest => (true, rest)
    | '+' :: rest => (false, rest)
    | _ => (false, cs)
  let low := signAndBody.2.map Char.toLower
  if low = "inf".data || low = "infinity".data then
    some (if signAndBody.1 then PyFloat.negInf else PyFloat.posInf)
  else if low = "nan".data then none
  else (strToRat s).map PyFloat.finite

/-- Python float() applied to a record value, faithfully: conversion succeeds
on infinities (json.loads of the enrichment API also produces float('inf')
from an Infinity literal).  none models a raised ValueError/TypeError. -/
def pyFloat : PyVal → Option PyFloat
  | .vstr s => strToFloat s
  | .vint n => some (PyFloat.finite n)
  | .vrat q => some (PyFloat.finite q)
  | .vinf => some PyFloat.posInf

/-- Python str() on a record value.  Floats in this pipeline are rendered
either as one-decimal values or via their exact fraction (only the former
occurs in the data exercised here). -/
def pyStr : PyVal → String
  | .vstr s => s
  | .vint n => toString n
  | .vrat q =>
    if (q * 10).den = 1 then renderTenths (q * 10).num
    else toString q.num ++ "/" ++ toString q.den
  | .vinf => "inf"

/-- A normalized fire record (the dict built by fires._normalize_row); a
field holds none when the key is absent (None values are stripped by
_normalize_row, so absence and None coincide). -/
structure FireRec where
  fire : Option PyVal := none
  name : Option PyVal := none
  location : Option PyVal := none
  size : Option PyVal := none
  status : Option PyVal := none
  distance : Option PyVal := none
  direction : Option PyVal := none
deriving DecidableEq, Repr

/-- filters.STATUS_LEVELS (app/filters.py lines 11-16): urgency levels,
lower = more urgent. -/
def STATUS_LEVELS : List (String × ℤ) :=
  [("active", 1), ("managed", 2), ("controlled", 3), ("out", 4)]

/-- A data source's status_map: urgency category to raw status codes. -/
abbrev StatusMap := List (String × List String)

/-- filters.get_allowed_statuses (app/filters.py lines 19-41): raw status
codes of every category whose level is at most the filter's level.  An
unknown filter level yields the empty set (the source's falsy check can only
fire on a missing key, since levels are 1-4). -/
def get_allowed_statuses (status_map : StatusMap) (filter_level : String) : List String :=
  match STATUS_LEVELS.lookup filter_level with
  | none => []
  | some max_level =>
    ((STATUS_LEVELS.filter (fun p => p.2 ≤ max_level)).map
      (fun p => (status_map.lookup p.1).getD [])).join

/-- Python membership test of a record's Status value in the allowed raw-code
set: only an equal string is a member; ints, floats and None never equal any
of the raw code strings. -/
def statusMatches (v : Option PyVal) (allowed : List String) : Bool :=
  match v with
  | some (.vstr s) => allowed.contains s
  | _ => false

/-- filters.apply_status_filter (app/filters.py lines 44-53).  The pipeline
always supplies a data file with a status_map, so the hasattr guard is not
modelled. -/
def apply_status_filter (items : List FireRec) (status_filter : String)
    (status_map : StatusMap) : List FireRec :=
  if status_filter = "all" then items
  else items.filter (fun item =>
    statusMatches item.status (get_allowed_statuses status_map status_filter))

/-- fires.status_to_level (app/fires.py lines 51-55): resolve a raw status
string through the status_map to its numeric level, or float('inf') when no
category lists it. -/
def status_to_level (value : String) (status_map : StatusMap) : PyVal :=
  match status_map.find? (fun p => p.2.contains value) with
  | some p =>
    match STATUS_LEVELS.lookup p.1 with
    | some l => .vint l
    | none => .vinf
  | none => .vinf

/-- filters.apply_distance_filter (app/filters.py lines 56-74): cap the
requested distance at max_radius, convert to meters, keep records whose
Distance is at most the limit.  A missing Distance defaults to float('inf')
and is dropped; non-numeric values cannot occur in pipeline records. -/
def apply_distance_filter (items : List FireRec) (distance_km : ℚ)
    (max_radius : ℚ) : List FireRec :=
  let distance_limit := (min distance_km max_radius) * 1000
  items.filter (fun item =>
    match item.distance with
    | some v =>
      match floatOfVal v with
      | some d => decide (d ≤ distance_limit)
      | none => false
    | none => false)

/-- filters.apply_size_filter (app/filters.py lines 77-91): keep records whose
Size converts to a float at least the threshold; missing or unconvertible
sizes are excluded.  A Size of float('inf') converts and satisfies
inf >= threshold, so it is kept. -/
def apply_size_filter (items : List FireRec) (min_size_ha : ℚ) : List FireRec :=
  items.filter (fun item =>
    match item.size with
    | some v =>
      match pyFloat v with
      | some f => decide (PyFloat.finite min_size_ha ≤ f)
      | none => false
    | none => false)

/-- The settings fields consumed by the fire pipeline (app/config.py).
fire_radius is an int in the configuration and is interpolated verbatim into
the no-fires reply. -/
structure FireSettings where
  fire_radius : ℤ
  max_radius : ℚ
  fire_status : String
  fire_size : ℚ
deriving Repr

/-- User-supplied filters extracted from the inbound message. -/
structure Filters where
  status : Option String := none
  distance : Option ℚ := none
  size : Option ℚ := none
deriving Repr

/-- The merged filter dict of FindFires.nearby: all three keys present. -/
structure FinalFilters where
  status : String
  distance : ℚ
  size : ℚ
deriving Repr

/-- FindFires.nearby's filter merge (app/fires.py lines 169-177): defaults
from settings, user filters override. -/
def final_filters (settings : FireSettings) (user : Filters) : FinalFilters :=
  { status := user.status.getD settings.fire_status,
    distance := user.distance.getD (settings.fire_radius : ℚ),
    size := user.size.getD settings.fire_size }

/-- filters.apply_filters (app/filters.py lines 102-122) on the merged dict:
handlers run in the dict's insertion order status, distance, size. -/
def apply_filters (items : List FireRec) (f : FinalFilters)
    (status_map : StatusMap) (settings : FireSettings) : List FireRec :=
  apply_size_filter
    (apply_distance_filter
      (apply_status_filter items f.status status_map)
      f.distance settings.max_radius)
    f.size

/-- The BC status map used throughout the repository's tests. -/
def bcStatusMap : StatusMap :=
  [("active", ["OUT_CNTRL"]), ("managed", ["HOLDING"]),
   ("controlled", ["UNDR_CNTRL"]), ("out", ["OUT"])]

/-- A record as produced by fires._normalize_row: its Status has been
resolved to a numeric level by status_to_level. -/
def bcNormalizedFire : FireRec :=
  { fire := some (.vstr "C10000"),
    status := some (status_to_level "OUT_CNTRL" bcStatusMap),
    size := some (.vrat 12),
    distance := some (.vint 4000),
    direction := some (.vstr "NW") }

/-- AvalancheReport._apply_filter (app/avalanche/report.py lines 107-144),
date-selection logic: days are modelled as day numbers with tomorrow =
today + 1; the 'all' branch sorts the forecast's date keys ascending. -/
def apply_filter_dates (forecast_filter : String) (now_hour : ℕ)
    (cutoff_hour : ℕ) (today : ℕ) (forecast_dates : List ℕ) : List ℕ :=
  if forecast_filter = "current" then
    if now_hour ≥ cutoff_hour then [today + 1] else [today]
  else if forecast_filter = "today" then [today]
  else if forecast_filter = "tomorrow" then [today + 1]
  else if forecast_filter = "all" then List.insertionSort (· ≤ ·) forecast_dates
  else [today]

theorem pythonRound_ge_floor (q : ℚ) : ⌊q⌋ ≤ pythonRound q := by
  unfold pythonRound
  split
  · exact le_refl _
  · split
    · exact le_of_lt (lt_add_one _)
    · split
      · exact le_refl _
      · exact le_of_lt (lt_add_one _)

theorem pythonRound_le_floor_add_one (q : ℚ) : pythonRound q ≤ ⌊q⌋ + 1 := by
  unfold pythonRound
  split
  · exact le_of_lt (lt_add_one _)
  · split
    · exact le_refl _
    · split
      · exact le_of_lt (lt_add_one _)
      · exact le_refl _

theorem pyInt_intCast (z : ℤ) : pyInt (z : ℚ) = z := by
  unfold pyInt
  simp

theorem distValue_low (m : ℚ) (h : m < 10000) :
    distValue (format_distance m) = (pythonRound (m / 100) : ℚ) / 10 := by
  have h10 : m / 1000 < 10 := by
    rw [div_lt_iff (by norm_num : (0:ℚ) < 1000)]
    linarith
  have harg : m / 1000 * 10 = m / 100 := by ring
  simp only [format_distance, if_pos h10, harg]
  split
  · next hc => simp only [distValue]; exact hc.symm
  · rfl

theorem format_distance_high (m : ℚ) (h : 10000 ≤ m) :
    format_distance m = Sum.inl (pythonRound (m / 1000)) := by
  have h10 : ¬ m / 1000 < 10 := by
    rw [not_lt, le_div_iff (by norm_num : (0:ℚ) < 1000)]
    linarith
  have hc : ((pythonRound (m / 1000) : ℤ) : ℚ) =
      (pyInt ((pythonRound (m / 1000) : ℤ) : ℚ) : ℚ) := by
    rw [pyInt_intCast]
  simp only [format_distance, if_neg h10]
  rw [if_pos hc, pyInt_intCast]

theorem format_distance_inr_den (m q : ℚ) (h : format_distance m = Sum.inr q) :
    q.den ≠ 1 := by
  intro hden
  have hq : ((q.num : ℤ) : ℚ) = q := by
    rw [← Rat.den_eq_one_iff]
    exact hden
  have hpy : pyInt q = q.num := by
    unfold pyInt
    rw [hden]
    simp [Int.tdiv_one]
  simp only [format_distance] at h
  split at h
  · split at h
    · exact Sum.noConfusion h
    · next hc =>
      cases h
      exact hc (by rw [hpy, hq])
  · split at h
    · exact Sum.noConfusion h
    · next hc =>
      cases h
      exact hc (by rw [hpy, hq])

theorem pythonRound_le_of_lt (q : ℚ) (n : ℤ) (h : q < (n : ℚ)) : pythonRound q ≤ n := by
  have h1 : ⌊q⌋ < n := Int.floor_lt.mpr h
  have h2 := pythonRound_le_floor_add_one q
  omega

theorem le_pythonRound_of_le (n : ℤ) (q : ℚ) (h : (n : ℚ) ≤ q) : n ≤ pythonRound q := by
  have h1 : n ≤ ⌊q⌋ := Int.le_floor.mpr h
  have h2 := pythonRound_ge_floor q
  omega

/-- C7: the distance formatter renders meters below 10 km with the value
round(km*10)/10, renders meters at or above 10 km as round(km), never carries
a trailing ".0" (an integral result is returned as a Python int, and any float
result has a nonzero decimal), and renders 10.0 km as "10", 9.95 km as "10"
and 9.94 km as "9.9". -/
theorem format_distance_spec :
    (∀ m : ℚ, 0 ≤ m → m < 10000 →
      distValue (format_distance m) = (pythonRound (m / 100) : ℚ) / 10) ∧
    (∀ m : ℚ, 10000 ≤ m → format_distance m = Sum.inl (pythonRound (m / 1000))) ∧
    (∀ m q : ℚ, format_distance m = Sum.inr q → q.den ≠ 1) ∧
    distToString (format_distance 10000) = "10" ∧
    distToString (format_distance 9950) = "10" ∧
    distToString (format_distance 9940) = "9.9" :=
  ⟨fun m _ h => distValue_low m h, format_distance_high, format_distance_inr_den,
   by decide, by decide, by decide⟩

/-- Witness for C7: the sub-10 km clause applied at 9940 meters. -/
theorem format_distance_spec_witness :
    (0 : ℚ) ≤ 9940 ∧ (9940 : ℚ) < 10000 ∧
    distValue (format_distance 9940) = (pythonRound ((9940 : ℚ) / 100) : ℚ) / 10 :=
  ⟨by norm_num, by norm_num, format_distance_spec.1 9940 (by norm_num) (by norm_num)⟩

/-- C8 counterexample: strict monotonicity fails across the 10 km boundary:
9999 m and 10000 m both render as the numeric value 10. -/
theorem format_distance_boundary_not_strict :
    (9999 : ℚ) < 10000 ∧
    distValue (format_distance 9999) = 10 ∧
    distValue (format_distance 10000) = 10 ∧
    ¬ distValue (format_distance 9999) < distValue (format_distance 10000) := by
  refine ⟨by norm_num, by decide, by decide, ?_⟩
  intro h
  rw [show distValue (format_distance 9999) = 10 from by decide,
      show distValue (format_distance 10000) = 10 from by decide] at h
  exact lt_irrefl _ h

/-- C8 amended: across the 10 km boundary the rendered numeric value is
monotone non-decreasing (not strictly increasing): for 0 ≤ m1 < 10000 ≤ m2
the value rendered for m1 is at most the value rendered for m2. -/
theorem format_distance_monotone_across_boundary :
    ∀ m1 m2 : ℚ, 0 ≤ m1 → m1 < 10000 → 10000 ≤ m2 →
    distValue (format_distance m1) ≤ distValue (format_distance m2) := by
  intro m1 m2 _ h1 h2
  rw [distValue_low m1 h1, format_distance_high m2 h2]
  have b1 : pythonRound (m1 / 100) ≤ 100 := by
    refine pythonRound_le_of_lt _ 100 ?_
    rw [div_lt_iff₀ (by norm_num : (0:ℚ) < 100)]
    push_cast
    linarith
  have b2 : (10 : ℤ) ≤ pythonRound (m2 / 1000) := by
    refine le_pythonRound_of_le 10 _ ?_
    rw [le_div_iff₀ (by norm_num : (0:ℚ) < 1000)]
    push_cast
    linarith
  have c1 : (pythonRound (m1 / 100) : ℚ) ≤ 100 := by exact_mod_cast b1
  have c2 : (10 : ℚ) ≤ (pythonRound (m2 / 1000) : ℚ) := by exact_mod_cast b2
  simp only [distValue]
  linarith

/-- Witness for C8 amended: 5 km versus 12 km. -/
theorem format_distance_monotone_across_boundary_witness :
    (0 : ℚ) ≤ 5000 ∧ (5000 : ℚ) < 10000 ∧ (10000 : ℚ) ≤ 12000 ∧
    distValue (format_distance 5000) ≤ distValue (format_distance 12000) :=
  ⟨by norm_num, by norm_num, by norm_num,
   format_distance_monotone_across_boundary 5000 12000
     (by norm_num) (by norm_num) (by norm_num)⟩

/-- C1 (code bug, evaluated at the failing input): a pipeline-normalized
record carries the numeric status level produced by status_to_level (here
level 1 for the raw BC code OUT_CNTRL), and 1 is at most LEVEL(controlled)=3,
yet apply_status_filter with the 'controlled' filter excludes the record,
because it tests the numeric level for membership in the set of raw status
code strings.  Only 'all' lets the record through. -/
theorem apply_status_filter_drops_normalized_record :
    status_to_level "OUT_CNTRL" bcStatusMap = .vint 1 ∧
    STATUS_LEVELS.lookup "controlled" = some 3 ∧
    (1 : ℤ) ≤ 3 ∧
    apply_status_filter [bcNormalizedFire] "controlled" bcStatusMap = [] ∧
    apply_status_filter [bcNormalizedFire] "all" bcStatusMap = [bcNormalizedFire] := by
  decide

/-- C5 (code bug, evaluated at the failing input): at the cutoff hour (16),
an unknown forecast filter ('soon') selects today's date, while 'current'
selects tomorrow's, so the unknown-filter fallback behaves as 'today', not as
'current' (contradicting the source's own inline comment). -/
theorem unknown_forecast_filter_behaves_as_today :
    apply_filter_dates "soon" 16 16 100 [] = [100] ∧
    apply_filter_dates "current" 16 16 100 [] = [101] ∧
    apply_filter_dates "today" 16 16 100 [] = [100] ∧
    apply_filter_dates "soon" 16 16 100 [] ≠ apply_filter_dates "current" 16 16 100 [] := by
  decide

theorem PyFloat.finite_inj {a b : ℚ} (h : PyFloat.finite a = PyFloat.finite b) :
    a = b := by
  unfold PyFloat.finite at h
  exact WithTop.coe_inj.mp (WithBot.coe_inj.mp h)

theorem PyFloat.finite_ne_posInf (q : ℚ) : PyFloat.finite q ≠ PyFloat.posInf := by
  unfold PyFloat.finite PyFloat.posInf
  intro h
  exact WithTop.coe_ne_top (WithBot.coe_inj.mp h)

theorem PyFloat.finite_ne_negInf (q : ℚ) : PyFloat.finite q ≠ PyFloat.negInf := by
  unfold PyFloat.finite PyFloat.negInf
  exact WithBot.coe_ne_bot

/-- When the faithful conversion yields a finite float, the formatter's
finite-result reading succeeds with the same rational. -/
theorem pyFloat_finite_agree (v : PyVal) (q : ℚ)
    (h : pyFloat v = some (PyFloat.finite q)) : floatOfVal v = some q := by
  cases v with
  | vstr s =>
    simp only [pyFloat] at h
    simp only [strToFloat] at h
    split_ifs at h with h1 h2 h3
    · rw [Option.some.injEq] at h
      exact absurd h.symm (PyFloat.finite_ne_negInf q)
    · rw [Option.some.injEq] at h
      exact absurd h.symm (PyFloat.finite_ne_posInf q)
    · simp only [floatOfVal]
      rw [Option.map_eq_some'] at h
      obtain ⟨a, ha, hfa⟩ := h
      rw [ha, PyFloat.finite_inj hfa]
  | vint n =>
    simp only [pyFloat, Option.some.injEq] at h
    simp only [floatOfVal, PyFloat.finite_inj h]
  | vrat qq =>
    simp only [pyFloat, Option.some.injEq] at h
    simp only [floatOfVal, PyFloat.finite_inj h]
  | vinf =>
    simp only [pyFloat, Option.some.injEq] at h
    exact absurd h.symm (PyFloat.finite_ne_posInf q)

/-- C10 amended: every record surviving the merged filter pipeline of
FindFires.nearby has a Size field that Python float() converts (the size
filter runs last and excludes missing and unconvertible sizes), and whenever
that conversion is finite the formatter's round(float(Size)) cannot raise,
the finite reading succeeding with the same value.  The guarantee stops at
finite sizes: a Size of float('inf') converts, passes the filter
(inf >= threshold) and then makes round() raise, as the counterexample
shows. -/
theorem pipeline_output_size_convertible :
    ∀ (settings : FireSettings) (user : Filters) (status_map : StatusMap)
      (items : List FireRec) (r : FireRec),
      r ∈ apply_filters items (final_filters settings user) status_map settings →
      ∃ v f, r.size = some v ∧ pyFloat v = some f ∧
        (∀ q : ℚ, f = PyFloat.finite q → floatOfVal v = some q) := by
  intro settings user sm items r hr
  unfold apply_filters apply_size_filter at hr
  rw [List.mem_filter] at hr
  obtain ⟨-, hp⟩ := hr
  split at hp
  · next v heq =>
    split at hp
    · next f heq2 =>
      refine ⟨v, f, heq, heq2, ?_⟩
      intro q hq
      exact pyFloat_finite_agree v q (by rw [heq2, hq])
    · simp at hp
  · simp at hp

/-- Settings used by the concrete pipeline scenarios. -/
def settings0 : FireSettings :=
  { fire_radius := 50, max_radius := 150, fire_status := "controlled", fire_size := 1 }

/-- A user request selecting all statuses within 25 km. -/
def user0 : Filters := { status := some "all", distance := some 25 }

/-- A concrete record that survives the pipeline (string-valued Size). -/
def recW : FireRec :=
  { fire := some (.vstr "K72481"), size := some (.vstr "5.5"),
    status := some (.vint 1), distance := some (.vint 4000),
    direction := some (.vstr "NW") }

/-- Witness for C10 amended: a record with a finite string-valued Size passes
the full pipeline at concrete settings. -/
theorem pipeline_output_size_convertible_witness :
    recW ∈ apply_filters [recW] (final_filters settings0 user0) bcStatusMap settings0 ∧
    ∃ v f, recW.size = some v ∧ pyFloat v = some f ∧
      (∀ q : ℚ, f = PyFloat.finite q → floatOfVal v = some q) :=
  ⟨by decide,
   pipeline_output_size_convertible settings0 user0 bcStatusMap [recW] recW (by decide)⟩


/-- AvalancheReport._select_provider (app/avalanche/report.py lines 28-63),
loop body: providers in configuration insertion order, each with the result of
distance_from_region (none = containment, some finite km, or some top for
float('inf')); best/bestD track best_provider and best_distance. -/
def select_provider_loop : List (String × Option (WithTop ℚ)) → ℚ →
    Option String → WithTop ℚ → Option String
  | [], _, best, _ => best
  | (k, d) :: rest, buffer, best, bestD =>
    match d with
    | none => some k
    | some dist =>
      if dist ≤ (buffer : WithTop ℚ) ∧ dist < bestD then
        select_provider_loop rest buffer (some k) dist
      else
        select_provider_loop rest buffer best bestD

/-- AvalancheReport._select_provider: run the loop with no best provider and
best_distance = float('inf'); buffer is settings.avalanche_distance_buffer. -/
def select_provider (providers : List (String × Option (WithTop ℚ)))
    (buffer : ℚ) : Option String :=
  select_provider_loop providers buffer none ⊤

theorem select_provider_loop_cons_none (k : String) (rest : List (String × Option (WithTop ℚ)))
    (buffer : ℚ) (best : Option String) (bestD : WithTop ℚ) :
    select_provider_loop ((k, none) :: rest) buffer best bestD = some k := rfl

theorem select_provider_loop_cons_some (k : String) (dist : WithTop ℚ)
    (rest : List (String × Option (WithTop ℚ))) (buffer : ℚ)
    (best : Option String) (bestD : WithTop ℚ) :
    select_provider_loop ((k, some dist) :: rest) buffer best bestD =
      if dist ≤ (buffer : WithTop ℚ) ∧ dist < bestD then
        select_provider_loop rest buffer (some k) dist
      else select_provider_loop rest buffer best bestD := rfl

theorem select_provider_loop_first_containment :
    ∀ (pre : List (String × Option (WithTop ℚ))) (k : String)
      (post : List (String × Option (WithTop ℚ))) (buffer : ℚ)
      (best : Option String) (bestD : WithTop ℚ),
      (∀ x ∈ pre, x.2 ≠ none) →
      select_provider_loop (pre ++ (k, none) :: post) buffer best bestD = some k := by
  intro pre
  induction pre with
  | nil => intro k post buffer best bestD _; rfl
  | cons hd tl ih =>
    intro k post buffer best bestD hpre
    obtain ⟨k1, d1⟩ := hd
    cases d1 with
    | none => exact absurd rfl (hpre (k1, none) (List.mem_cons_self _ _))
    | some dist =>
      rw [List.cons_append, select_provider_loop_cons_some]
      split
      · exact ih k post buffer _ _ (fun x hx => hpre x (List.mem_cons_of_mem _ hx))
      · exact ih k post buffer _ _ (fun x hx => hpre x (List.mem_cons_of_mem _ hx))

theorem select_provider_loop_no_containment :
    ∀ (ps : List (String × Option (WithTop ℚ))) (buffer : ℚ)
      (best : Option String) (bestD : WithTop ℚ),
      (∀ x ∈ ps, x.2 ≠ none) →
      (select_provider_loop ps buffer best bestD = best ∧
        ∀ k d, (k, some d) ∈ ps → ¬(d ≤ (buffer : WithTop ℚ) ∧ d < bestD)) ∨
      (∃ k d, (k, some d) ∈ ps ∧
        select_provider_loop ps buffer best bestD = some k ∧
        d ≤ (buffer : WithTop ℚ) ∧ d < bestD ∧
        ∀ k2 d2, (k2, some d2) ∈ ps → d2 ≤ (buffer : WithTop ℚ) → d ≤ d2) := by
  intro ps
  induction ps with
  | nil =>
    intro buffer best bestD _
    left
    exact ⟨rfl, by simp⟩
  | cons hd tl ih =>
    intro buffer best bestD hnc
    obtain ⟨k1, d1⟩ := hd
    cases d1 with
    | none => exact absurd rfl (hnc (k1, none) (List.mem_cons_self _ _))
    | some dist =>
      have htl : ∀ x ∈ tl, x.2 ≠ none := fun x hx => hnc x (List.mem_cons_of_mem _ hx)
      by_cases hc : dist ≤ (buffer : WithTop ℚ) ∧ dist < bestD
      · have hred : select_provider_loop ((k1, some dist) :: tl) buffer best bestD =
            select_provider_loop tl buffer (some k1) dist := by
          rw [select_provider_loop_cons_some, if_pos hc]
        rcases ih buffer (some k1) dist htl with ⟨heq, hall⟩ |
          ⟨k', d', hmem, heq, hb, hlt, hmin⟩
        · right
          refine ⟨k1, dist, List.mem_cons_self _ _, hred.trans heq, hc.1, hc.2, ?_⟩
          intro k2 d2 hm2 hb2
          rcases List.mem_cons.mp hm2 with h | h
          · rw [Prod.mk.injEq] at h
            rw [Option.some.injEq] at h
            rw [h.2]
          · have h3 := hall k2 d2 h
            by_contra hlt2
            exact h3 ⟨hb2, lt_of_not_le hlt2⟩
        · right
          refine ⟨k', d', List.mem_cons_of_mem _ hmem, hred.trans heq, hb,
            lt_trans hlt hc.2, ?_⟩
          intro k2 d2 hm2 hb2
          rcases List.mem_cons.mp hm2 with h | h
          · rw [Prod.mk.injEq] at h
            rw [Option.some.injEq] at h
            rw [h.2]
            exact le_of_lt hlt
          · exact hmin k2 d2 h hb2
      · have hred : select_provider_loop ((k1, some dist) :: tl) buffer best bestD =
            select_provider_loop tl buffer best bestD := by
          rw [select_provider_loop_cons_some, if_neg hc]
        rcases ih buffer best bestD htl with ⟨heq, hall⟩ |
          ⟨k', d', hmem, heq, hb, hlt, hmin⟩
        · left
          refine ⟨hred.trans heq, ?_⟩
          intro k2 d2 hm2
          rcases List.mem_cons.mp hm2 with h | h
          · rw [Prod.mk.injEq] at h
            rw [Option.some.injEq] at h
            rw [h.2]
            exact hc
          · exact hall k2 d2 h
        · right
          refine ⟨k', d', List.mem_cons_of_mem _ hmem, hred.trans heq, hb, hlt, ?_⟩
          intro k2 d2 hm2 hb2
          rcases List.mem_cons.mp hm2 with h | h
          · rw [Prod.mk.injEq] at h
            rw [Option.some.injEq] at h
            rw [h.2] at hb2 ⊢
            have hble : bestD ≤ dist := by
              by_contra hnb
              exact hc ⟨hb2, lt_of_not_le hnb⟩
            exact le_of_lt (lt_of_lt_of_le hlt hble)
          · exact hmin k2 d2 h hb2

theorem select_provider_loop_containment_key :
    ∀ (ps : List (String × Option (WithTop ℚ))) (k : String) (buffer : ℚ)
      (best : Option String) (bestD : WithTop ℚ),
      (∃ x ∈ ps, x.2 = none) → (∀ x ∈ ps, x.2 = none → x.1 = k) →
      select_provider_loop ps buffer best bestD = some k := by
  intro ps
  induction ps with
  | nil =>
    intro k buffer best bestD hex _
    obtain ⟨x, hx, -⟩ := hex
    exact absurd hx (List.not_mem_nil x)
  | cons hd tl ih =>
    intro k buffer best bestD hex hall
    obtain ⟨k1, d1⟩ := hd
    cases d1 with
    | none =>
      rw [select_provider_loop_cons_none]
      exact congrArg some (hall (k1, none) (List.mem_cons_self _ _) rfl)
    | some dist =>
      have hex2 : ∃ x ∈ tl, x.2 = none := by
        obtain ⟨x, hx, hxn⟩ := hex
        rcases List.mem_cons.mp hx with h | h
        · rw [h] at hxn
          exact absurd hxn (by simp)
        · exact ⟨x, h, hxn⟩
      have hall2 : ∀ x ∈ tl, x.2 = none → x.1 = k :=
        fun x hx => hall x (List.mem_cons_of_mem _ hx)
      rw [select_provider_loop_cons_some]
      split
      · exact ih k buffer _ _ hex2 hall2
      · exact ih k buffer _ _ hex2 hall2

/-- C4: provider selection returns the first provider (in configuration
insertion order) whose distance_from_region is None (containment); if none is
contained, it returns a provider of minimal finite distance within the
avalanche_distance_buffer; if none qualifies it returns no provider; and for a
contained provider the selection is that provider regardless of the other,
non-containing entries. -/
theorem select_provider_spec :
    (∀ (pre post : List (String × Option (WithTop ℚ))) (k : String) (buffer : ℚ),
      (∀ x ∈ pre, x.2 ≠ none) →
      select_provider (pre ++ (k, none) :: post) buffer = some k) ∧
    (∀ (ps : List (String × Option (WithTop ℚ))) (buffer : ℚ),
      (∀ x ∈ ps, x.2 ≠ none) →
      (∃ k d, (k, some d) ∈ ps ∧ d ≤ (buffer : WithTop ℚ)) →
      ∃ k d, (k, some d) ∈ ps ∧ select_provider ps buffer = some k ∧
        d ≤ (buffer : WithTop ℚ) ∧
        ∀ k2 d2, (k2, some d2) ∈ ps → d2 ≤ (buffer : WithTop ℚ) → d ≤ d2) ∧
    (∀ (ps : List (String × Option (WithTop ℚ))) (buffer : ℚ),
      (∀ x ∈ ps, x.2 ≠ none) →
      (∀ k d, (k, some d) ∈ ps → ¬ d ≤ (buffer : WithTop ℚ)) →
      select_provider ps buffer = none) ∧
    (∀ (ps : List (String × Option (WithTop ℚ))) (k : String) (buffer : ℚ),
      (∃ x ∈ ps, x.2 = none) → (∀ x ∈ ps, x.2 = none → x.1 = k) →
      select_provider ps buffer = some k) := by
  refine ⟨?_, ?_, ?_, ?_⟩
  · intro pre post k buffer hpre
    exact select_provider_loop_first_containment pre k post buffer none ⊤ hpre
  · intro ps buffer hnc hex
    rcases select_provider_loop_no_containment ps buffer none ⊤ hnc with ⟨-, hall⟩ |
      ⟨k', d', hmem, heq, hb, -, hmin⟩
    · obtain ⟨k, d, hm, hdb⟩ := hex
      have hdt : d < ⊤ := lt_of_le_of_lt hdb (WithTop.coe_lt_top buffer)
      exact absurd ⟨hdb, hdt⟩ (hall k d hm)
    · exact ⟨k', d', hmem, heq, hb, hmin⟩
  · intro ps buffer hnc hnq
    rcases select_provider_loop_no_containment ps buffer none ⊤ hnc with ⟨heq, -⟩ |
      ⟨k', d', hmem, -, hb, -, -⟩
    · exact heq
    · exact absurd hb (hnq k' d' hmem)
  · intro ps k buffer hex hall
    exact select_provider_loop_containment_key ps k buffer none ⊤ hex hall

/-- Witness for C4: with providers [canada at 5 km, quebec containing], the
containing provider quebec is selected although it comes second. -/
theorem select_provider_spec_witness :
    (∀ x ∈ [("canada", some ((5 : ℚ) : WithTop ℚ))], x.2 ≠ none) ∧
    select_provider
      [("canada", some ((5 : ℚ) : WithTop ℚ)), ("quebec", none)] 20 = some "quebec" :=
  ⟨by decide,
   select_provider_spec.1 [("canada", some ((5 : ℚ) : WithTop ℚ))] [] "quebec" 20 (by decide)⟩


/-- UTF-16 code-unit count of a string: Messages._message_length computes
len(message.encode('utf_16_le'))/2, i.e. one unit per BMP character and two
per astral character. -/
def utf16Len (s : String) : ℕ :=
  (s.data.map (fun c => if c.toNat < 65536 then 1 else 2)).sum

/-- The three rendering levels of Messages._fire. -/
inductive MsgSize where
  | full
  | medium
  | short
deriving DecidableEq, Repr

/-- Append a line unless its key string is falsy (empty). -/
def lineIf (s : String) (line : String) : List String :=
  if s = "" then [] else [line]

/-- Append a templated line for an optional value unless absent or falsy. -/
def optLineIf (v : Option String) (pre : String) : List String :=
  match v with
  | some s => if s = "" then [] else [pre ++ s]
  | none => []

/-- Append the size line unless the rounded size is falsy (zero). -/
def sizeLineIf (sizeZ : ℤ) (line : String) : List String :=
  if sizeZ = 0 then [] else [line]

/-- FullName computation of Messages._fire (app/messages.py lines 68-73). -/
def fullNameOf (nameS : Option String) (fireS : String) (sz : MsgSize) : String :=
  match nameS with
  | some n =>
    if n ≠ fireS then
      match sz with
      | .full => n ++ " (" ++ fireS ++ ")"
      | .medium => n ++ " " ++ fireS
      | .short => fireS
    else fireS
  | none => fireS

/-- The per-level field lists of Messages._fire (app/messages.py lines 44-62),
with falsy values skipped as by the loop at lines 80-84. -/
def fireParts (sz : MsgSize) (fullName fireS distDir : String) (sizeZ : ℤ)
    (locS statusS : Option String) : List String :=
  match sz with
  | .full =>
    lineIf fullName ("Fire: " ++ fullName) ++ optLineIf locS "Location: " ++
    lineIf distDir distDir ++
    sizeLineIf sizeZ ("Size: " ++ toString sizeZ ++ " ha") ++
    optLineIf statusS "Status: "
  | .medium =>
    lineIf fullName ("Fire: " ++ fullName) ++ lineIf distDir distDir ++
    sizeLineIf sizeZ ("Size: " ++ toString sizeZ ++ " ha")
  | .short =>
    lineIf fireS fireS ++ lineIf distDir distDir ++
    sizeLineIf sizeZ (toString sizeZ ++ "ha")

/-- One rendering level of Messages._fire (app/messages.py lines 35-92),
without the ladder.  Returns none where the source would raise: a missing
Fire, Distance, Direction or Size key, or a Distance/Size that float() cannot
convert.  All values are stringified and stripped first, as in the source;
float(str(v)) on the stripped value is modelled by floatOfVal on the stored
value, which agrees on every value shape occurring in records. -/
def renderFire (r : FireRec) (sz : MsgSize) : Option String :=
  match r.fire, r.distance, r.direction, r.size with
  | some fv, some dv, some dirv, some sv =>
    match floatOfVal dv, floatOfVal sv with
    | some distQ, some sizeQ =>
      let fireS := pyStrip (pyStr fv)
      let dirS := pyStrip (pyStr dirv)
      let nameS := (r.name).map (fun v => pyStrip (pyStr v))
      let locS := (r.location).map (fun v => pyStrip (pyStr v))
      let statusS := (r.status).map (fun v => pyStrip (pyStr v))
      let fullName := fullNameOf nameS fireS sz
      let distDir := distToString (format_distance distQ) ++ "km " ++ dirS
      let sizeZ := pythonRound sizeQ
      some (String.intercalate "\n"
        (fireParts sz fullName fireS distDir sizeZ locS statusS))
    | _, _ => none
  | _, _, _, _ => none

/-- Messages._fire with its degradation ladder (app/messages.py lines 86-92):
render full; if over the 159-unit budget re-render medium; if still over
re-render short, which is returned without a further check.  The recursive
source call on the mutated dict re-derives every field, so it equals a direct
rendering at the smaller level. -/
def fireMessage (r : FireRec) : Option String :=
  match renderFire r .full with
  | none => none
  | some full =>
    if utf16Len full > 159 then
      match renderFire r .medium with
      | none => none
      | some med =>
        if utf16Len med > 159 then renderFire r .short
        else some med
    else some full

/-- A pathological record whose Fire code alone exceeds the SMS budget. -/
def longCodeFire : FireRec :=
  { fire := some (.vstr (String.mk (List.replicate 200 'A'))),
    size := some (.vint 5),
    distance := some (.vint 1000),
    direction := some (.vstr "NW") }

set_option maxRecDepth 40000 in
/-- C3 counterexample: a record whose Fire code is 200 characters long
produces, after the full degradation ladder, an entry of 211 UTF-16 code
units, exceeding the 159-unit budget. -/
theorem fireMessage_can_exceed_sms_budget :
    (fireMessage longCodeFire).map utf16Len = some 211 ∧ ¬ (211 ≤ 159) := by
  exact ⟨by decide, by decide⟩

/-- C3 amended: after the degradation ladder each formatted fire entry either
fits the 159-unit UTF-16 budget or is exactly the short rendering; the ladder
never degrades below short, whose length is unbounded for pathological field
values. -/
theorem fireMessage_within_budget_or_short :
    ∀ (r : FireRec) (m : String), fireMessage r = some m →
      utf16Len m ≤ 159 ∨ renderFire r .short = some m := by
  intro r m h
  unfold fireMessage at h
  cases hf : renderFire r .full with
  | none => rw [hf] at h; exact absurd h (by simp)
  | some full =>
    rw [hf] at h
    dsimp only at h
    by_cases h1 : utf16Len full > 159
    · rw [if_pos h1] at h
      cases hm : renderFire r .medium with
      | none => rw [hm] at h; exact absurd h (by simp)
      | some med =>
        rw [hm] at h
        dsimp only at h
        by_cases h2 : utf16Len med > 159
        · rw [if_pos h2] at h
          exact Or.inr h
        · rw [if_neg h2] at h
          cases h
          exact Or.inl (le_of_not_lt h2)
    · rw [if_neg h1] at h
      cases h
      exact Or.inl (le_of_not_lt h1)

/-- Witness for C3 amended: a small record's entry fits the budget. -/
theorem fireMessage_within_budget_or_short_witness :
    fireMessage recW = some "Fire: K72481\n4km NW\nSize: 6 ha\nStatus: 1" ∧
    (utf16Len "Fire: K72481\n4km NW\nSize: 6 ha\nStatus: 1" ≤ 159 ∨
      renderFire recW .short = some "Fire: K72481\n4km NW\nSize: 6 ha\nStatus: 1") :=
  ⟨by decide, fireMessage_within_budget_or_short recW _ (by decide)⟩

/-- A record whose Size is float('inf'), as json.loads of an enrichment API
body containing an Infinity literal produces. -/
def infSizeFire : FireRec :=
  { fire := some (.vstr "K99999"), size := some .vinf,
    status := some (.vint 1), distance := some (.vint 4000),
    direction := some (.vstr "NW") }

/-- C10 counterexample: a record whose Size is float('inf') converts
successfully, satisfies inf >= threshold and so survives the whole filter
pipeline, yet the formatter's unconditional round(float(Size)) raises
OverflowError on it (the formatter embedding returns none for the raise), so
the claimed cannot-raise guarantee fails on pipeline output. -/
theorem infinite_size_survives_pipeline :
    pyFloat PyVal.vinf = some PyFloat.posInf ∧
    apply_filters [infSizeFire] (final_filters settings0 user0) bcStatusMap settings0 =
      [infSizeFire] ∧
    fireMessage infSizeFire = none :=
  ⟨rfl, by decide, by decide⟩


/-- The payload of a successful Open-Meteo air-quality response as read by
helpers.get_aqi: the reported timezone and the aligned hourly.time and
hourly.us_aqi arrays. -/
structure AqiData where
  timezone : String
  times : List String
  values : List ℤ
deriving Repr

/-- helpers.get_aqi (app/helpers.py lines 63-94).  The combined outcome of
requests.get plus .json() is passed in (.error = the exception those raise on
network failure or a non-JSON body); currentHour is the current hour formatted
in the API-reported timezone.  The source has no exception handler, so every
failure propagates: a current hour missing from the time array raises
ValueError (list.index), and a shorter AQI array raises IndexError. -/
def get_aqi (resp : Except String AqiData) (currentHour : String) : Except String ℤ :=
  match resp with
  | .error e => .error e
  | .ok data =>
    match data.times.findIdx? (fun t => t == currentHour) with
    | none => .error "ValueError"
    | some i =>
      match data.values.get? i with
      | none => .error "IndexError"
      | some v => .ok v

/-- Messages.outside_of_area (app/messages.py lines 16-17). -/
def outside_of_area_msg : String :=
  "TrekSafer ERROR: GPS coordinates outside of supported fire perimeter area. No data available."

/-- Messages.no_fires (app/messages.py lines 19-23): interpolates
settings.fire_radius; it never consults the user filters. -/
def no_fires_msg (settings : FireSettings) : String :=
  "No fires reported within a " ++ toString settings.fire_radius ++
  "km radius of your location."

/-- The inputs of messages.handle_fire_request (app/messages.py lines
121-153): settings, whether AQI is configured, the AQI fetch outcome and
current hour, whether FindFires found no data source in range, the user
filters, and the fire search as a function of the merged filters it is run
with. -/
structure FireReqCtx where
  settings : FireSettings
  include_aqi : Bool
  aqiResp : Except String AqiData
  currentHour : String
  out_of_range : Bool
  user_filters : Filters
  nearby : FinalFilters → List FireRec

/-- messages.handle_fire_request: build the AQI line first (uncaught get_aqi
failures propagate as .error), then the out-of-range check, then the search
with merged filters; an empty result yields the no-fires reply, otherwise the
formatted entries joined by blank lines. -/
def handle_fire_request (ctx : FireReqCtx) : Except String String :=
  match (if ctx.include_aqi then
      match get_aqi ctx.aqiResp ctx.currentHour with
      | .error e => .error e
      | .ok v => .ok ("AQI: " ++ toString v ++ "\n\n")
    else .ok "" : Except String String) with
  | .error e => .error e
  | .ok aqi_message =>
    if ctx.out_of_range then .ok (aqi_message ++ outside_of_area_msg)
    else
      let fires := ctx.nearby (final_filters ctx.settings ctx.user_filters)
      if fires.isEmpty then .ok (aqi_message ++ no_fires_msg ctx.settings)
      else
        match fires.mapM fireMessage with
        | some msgs => .ok (aqi_message ++ String.intercalate "\n\n" msgs)
        | none => .error "KeyError"

/-- A well-formed AQI payload whose time array lacks the queried hour. -/
def aqiNoHour : AqiData :=
  { timezone := "America/Los_Angeles",
    times := ["2025-12-24T14:00", "2025-12-24T15:00"],
    values := [38, 42] }

/-- A fire request with AQI configured whose AQI fetch fails on the network. -/
def ctxNet : FireReqCtx :=
  { settings := settings0, include_aqi := true,
    aqiResp := .error "ConnectionError", currentHour := "2025-12-24T16:00",
    out_of_range := false, user_filters := {}, nearby := fun _ => [] }

/-- C6 (code bug, evaluated at the failing inputs): get_aqi has no exception
handler, so a network/JSON failure, and equally a current hour missing from
the hourly time array, escape as exceptions and handle_fire_request propagates
them instead of replying with the AQI line omitted; with include_aqi off the
very same request replies normally. -/
theorem aqi_failure_propagates_to_fire_request :
    get_aqi (.ok aqiNoHour) "2025-12-24T16:00" = .error "ValueError" ∧
    handle_fire_request ctxNet = .error "ConnectionError" ∧
    handle_fire_request { ctxNet with include_aqi := false } =
      .ok (no_fires_msg settings0) :=
  ⟨rfl, rfl, rfl⟩

/-- The no-fires scenario: default radius 50 km, user asks for 25 km. -/
def ctx25 : FireReqCtx :=
  { settings := settings0, include_aqi := false,
    aqiResp := .error "unused", currentHour := "",
    out_of_range := false,
    user_filters := { distance := some 25 },
    nearby := fun _ => [] }

/-- C9 counterexample: the user distance filter 25 km is merged into the
applied filters (effective search radius min(25, max_radius) = 25), yet the
empty-result reply quotes the 50 km default fire_radius, not the effective
25 km radius the claim requires. -/
theorem no_fires_reply_ignores_user_distance :
    (final_filters settings0 ctx25.user_filters).distance = 25 ∧
    min (final_filters settings0 ctx25.user_filters).distance settings0.max_radius = 25 ∧
    handle_fire_request ctx25 =
      .ok "No fires reported within a 50km radius of your location." ∧
    "No fires reported within a 50km radius of your location." ≠
      "No fires reported within a 25km radius of your location." :=
  ⟨by decide, by decide, rfl, by decide⟩

/-- C9 amended: when the coordinate is in range and the filtered search comes
back empty, the reply is the no-fires message quoting the default fire_radius
from settings, regardless of any user distance filter. -/
theorem no_fires_reply_states_default_radius :
    ∀ (ctx : FireReqCtx), ctx.include_aqi = false → ctx.out_of_range = false →
      ctx.nearby (final_filters ctx.settings ctx.user_filters) = [] →
      handle_fire_request ctx =
        .ok ("No fires reported within a " ++ toString ctx.settings.fire_radius ++
          "km radius of your location.") := by
  intro ctx ha ho hn
  simp only [handle_fire_request, ha, ho, hn, no_fires_msg]
  rfl

/-- Witness for C9 amended: the 25 km request against 50 km defaults. -/
theorem no_fires_reply_states_default_radius_witness :
    ctx25.include_aqi = false ∧ ctx25.out_of_range = false ∧
    ctx25.nearby (final_filters ctx25.settings ctx25.user_filters) = [] ∧
    handle_fire_request ctx25 =
      .ok ("No fires reported within a " ++ toString ctx25.settings.fire_radius ++
        "km radius of your location.") :=
  ⟨rfl, rfl, rfl, no_fires_reply_states_default_radius ctx25 rfl rfl rfl⟩


/-- Word characters for the regex \b boundary: [A-Za-z0-9_]. -/
def isWordChar (c : Char) : Bool :=
  c.isAlphanum || c = '_'

/-- All ways the regex piece -? can consume input, sign-consuming first
(greedy preference order). -/
def optMinus (cs : List Char) : List (List Char × List Char) :=
  match cs with
  | '-' :: rest => [(['-'], rest), ([], '-' :: rest)]
  | _ => [([], cs)]

/-- All ways \d{lo,hi} can consume input, longest first (greedy). -/
def digitRuns (lo hi : ℕ) (cs : List Char) : List (List Char × List Char) :=
  let avail := min hi (cs.takeWhile Char.isDigit).length
  (((List.range (avail + 1)).reverse).filter (fun n => lo ≤ n)).map
    (fun n => (cs.take n, cs.drop n))

/-- All ways \s* can consume input, longest first (greedy). -/
def wsRuns (cs : List Char) : List (List Char × List Char) :=
  let avail := (cs.takeWhile isPySpace).length
  ((List.range (avail + 1)).reverse).map (fun n => (cs.take n, cs.drop n))

/-- Consume one literal character. -/
def litChar (c : Char) (cs : List Char) : List (List Char × List Char) :=
  match cs with
  | c2 :: rest => if c2 = c then [([c2], rest)] else []
  | [] => []

/-- The numeral group of helpers.parse_message (app/helpers.py lines 161-162):
-?\d{1,maxInt}\.\d{1,8} | -?\d{1,maxInt} (maxInt = 2 for lat_coord, 3 for
long_coord); all matches in the regex engine's preference order. -/
def numAlts (maxInt : ℕ) (cs : List Char) : List (List Char × List Char) :=
  (do
    let pm ← optMinus cs
    let pi ← digitRuns 1 maxInt pm.2
    let pd ← litChar '.' pi.2
    let pf ← digitRuns 1 8 pd.2
    pure (pm.1 ++ pi.1 ++ pd.1 ++ pf.1, pf.2)) ++
  (do
    let pm ← optMinus cs
    let pi ← digitRuns 1 maxInt pm.2
    pure (pm.1 ++ pi.1, pi.2))

/-- One attempt of the inReach trailing-bracket pattern (app/helpers.py line
165: \( lat , \s* lon \) \s* $) anchored at the start of cs, where cs is a
suffix of the message so that end-of-list is end-of-string; returns the two
captured numerals. -/
def trailingAt (cs : List Char) : List (String × String) := do
  let p1 ← litChar '(' cs
  let plat ← numAlts 2 p1.2
  let p2 ← litChar ',' plat.2
  let p3 ← wsRuns p2.2
  let plon ← numAlts 3 p3.2
  let p4 ← litChar ')' plon.2
  let p5 ← wsRuns p4.2
  if p5.2.isEmpty then pure (String.mk plat.1, String.mk plon.1) else []

/-- re.search of the trailing-bracket pattern: try every start position left
to right, first match wins. -/
def searchTrailing : List Char → Option (String × String)
  | [] => none
  | c :: rest =>
    match (trailingAt (c :: rest)).head? with
    | some r => some r
    | none => searchTrailing rest

/-- The \b boundary between the previous character (none at string start) and
the first consumed character. -/
def boundaryOk (prev : Option Char) (c0 : Char) : Bool :=
  match prev with
  | none => isWordChar c0
  | some p => (isWordChar p) != (isWordChar c0)

/-- One attempt of the anywhere-pair pattern (app/helpers.py line 173:
\b lat \s* , \s* lon \b) anchored at the start of cs.  The pattern's last
consumed character is always a digit (a word character), so the trailing \b
holds exactly when the next character is absent or not a word character.
Returns the captures, the last consumed character and the remainder. -/
def pairAt (prev : Option Char) (cs : List Char) :
    List ((String × String) × Char × List Char) := do
  let c0 ← (cs.head?).toList
  if boundaryOk prev c0 then
    let plat ← numAlts 2 cs
    let pw1 ← wsRuns plat.2
    let p2 ← litChar ',' pw1.2
    let pw2 ← wsRuns p2.2
    let plon ← numAlts 3 pw2.2
    if (match plon.2.head? with
        | none => true
        | some cnext => !(isWordChar cnext)) then
      pure ((String.mk plat.1, String.mk plon.1),
        (plon.1.getLast?).getD '0', plon.2)
    else []
  else []

/-- re.findall of the pair pattern: scan left to right; after a match,
scanning continues past it (matches are non-overlapping).  The fuel bounds
the iteration count (the input length suffices, as every step consumes at
least one character). -/
def findPairsAux : ℕ → Option Char → List Char → List (String × String)
  | 0, _, _ => []
  | _ + 1, _, [] => []
  | fuel + 1, prev, c :: rest =>
    match (pairAt prev (c :: rest)).head? with
    | some r => r.1 :: findPairsAux fuel (some r.2.1) r.2.2
    | none => findPairsAux fuel (some c) rest

/-- helpers.parse_message coordinate extraction (app/helpers.py lines
161-207), decimal branches.  The trailing-bracket branch converts both
captures with float() and returns them WITHOUT any bounds validation.
Otherwise every pair found anywhere in the string is converted and the first
one within latitude [-90, 90] and longitude [-180, 180] is returned.  The URL
branch requires an http(s):// token and the degree-hemisphere branch requires
N/S and E/W letters, so neither can fire on the inputs considered here; they
are not modelled. -/
def parse_coords (message : String) : Option (ℚ × ℚ) :=
  match searchTrailing message.data with
  | some latlon => do
    let la ← strToRat latlon.1
    let lo ← strToRat latlon.2
    pure (la, lo)
  | none =>
    let cands := (findPairsAux (message.data.length + 1) none message.data).filterMap
      (fun p => do
        let la ← strToRat p.1
        let lo ← strToRat p.2
        pure (la, lo))
    cands.find? (fun c =>
      decide (c.1 ≤ 90 ∧ -90 ≤ c.1 ∧ c.2 ≤ 180 ∧ -180 ≤ c.2))

set_option maxRecDepth 200000 in
/-- C2 (code bug, evaluated at the failing inputs): the trailing-bracket
branch of parse_message returns the matched pair without any bounds check, so
"(91, 0)" parses to coordinates (91, 0) and "(0, 181)" to (0, 181), although
latitude 91 and longitude 181 are out of range; the repository's own tests
(test_message_parser) require None for both.  The anywhere-scan branch, in
contrast, does validate and continue scanning: in the last conjunct the
out-of-range pair (1234, 99) is skipped and the later valid pair is
returned. -/
theorem parse_coords_accepts_out_of_range_trailing_pair :
    parse_coords "(91, 0)" = some (91, 0) ∧ ¬ ((91 : ℚ) ≤ 90) ∧
    parse_coords "(0, 181)" = some (0, 181) ∧ ¬ ((181 : ℚ) ≤ 180) ∧
    parse_coords "Invalid (1234, 99) valid (52.5092, -115.6182)." =
      some (525092/10000, -1156182/10000) :=
  ⟨by decide, by decide, by decide, by decide, by decide⟩

end TrekSafer
